import Mathlib

/-!
Verification of the ingestion/normalization pipeline of
`binance_spot_downloader.py` against its specification.

The development shallowly embeds the functions of the source that the
specified properties concern:

* `month_range` (source lines 30–41): parsing of the two `YYYY-MM`
  identifiers via `datetime.strptime(..., "%Y-%m")` and the month-stepping
  `while` loop;
* `parse_month_zip` (lines 87–133): field coercion, median-based timestamp
  unit auto-detection, timestamp conversion, the drop of null-timestamp
  rows, and the sort-and-dedup-by-timestamp step;
* `concat_and_save` (lines 136–148): the empty-input early return and the
  cross-month re-sort/re-dedup;
* the per-instrument month loop of `main` (lines 173–195): the `try`/
  `except` handling of absent archives and failing months.

Numeric values are modelled as exact rationals (`ℚ`); Python floats are
not bit-modelled, and all properties proved here are independent of
sub-ulp rounding.  `NaN` outcomes of pandas' coercions are modelled with
`Option` (where Python's `NaN > x` comparisons are `False`, the model
matches the `none` case explicitly to the branch the code takes).
-/

namespace BinanceDownloader

/-! ### Month tokens

Models a `datetime.datetime` value as produced by
`strptime(s, "%Y-%m")` / `datetime(year, month, 1)`: the day is always 1,
so only year and month are carried.  The `datetime` constructor enforces
`MINYEAR = 1 <= year <= MAXYEAR = 9999` and `1 <= month <= 12` (raising
`ValueError` otherwise), so these bounds are part of the type. -/

structure PyDate where
  year : ℕ
  month : ℕ
  year_pos : 1 ≤ year
  year_le9999 : year ≤ 9999
  month_pos : 1 ≤ month
  month_le12 : month ≤ 12

instance : DecidableEq PyDate := fun a b =>
  if h : a.year = b.year ∧ a.month = b.month then
    isTrue (by cases a; cases b; simp_all)
  else
    isFalse (by intro he; cases he; simp at h)

/-- Linearization of a month token: `year*12 + month`. -/
def monthIdx (d : PyDate) : ℕ := d.year * 12 + d.month

/-- Comparison `cur <= e` on `datetime` values with equal day fields:
lexicographic on (year, month). -/
def monthLe (a b : PyDate) : Bool :=
  decide (a.year < b.year ∨ (a.year = b.year ∧ a.month ≤ b.month))

theorem monthLe_iff (a b : PyDate) : monthLe a b = true ↔ monthIdx a ≤ monthIdx b := by
  have ha1 := a.month_pos; have ha2 := a.month_le12
  have hb1 := b.month_pos; have hb2 := b.month_le12
  unfold monthLe monthIdx
  rw [decide_eq_true_iff]
  omega

/-- Raw year computed by the loop body: `y = cur.year + (cur.month // 12)`. -/
def monthSuccYear (c : PyDate) : ℕ := c.year + c.month / 12

/-- Raw month computed by the loop body:
`m = 1 if cur.month == 12 else cur.month + 1`. -/
def monthSuccMonth (c : PyDate) : ℕ := if c.month = 12 then 1 else c.month + 1

/-- One step of the loop body of `month_range` (lines 38–40):
`cur = datetime(y, m, 1)`.  The `datetime` constructor enforces
`MAXYEAR = 9999` and raises `ValueError` beyond it — modelled by `none`,
which happens exactly when stepping past `9999-12`. -/
def monthSucc (c : PyDate) : Option PyDate :=
  if h : monthSuccYear c ≤ 9999 then
    some ⟨monthSuccYear c, monthSuccMonth c,
      by have := c.year_pos; unfold monthSuccYear; omega, h,
      by unfold monthSuccMonth; split <;> omega,
      by have := c.month_le12; unfold monthSuccMonth; split <;> omega⟩
  else none

theorem monthSucc_arith (c : PyDate) :
    monthSuccYear c * 12 + monthSuccMonth c = monthIdx c + 1 := by
  have h1 := c.month_pos
  have h2 := c.month_le12
  unfold monthSuccYear monthSuccMonth monthIdx
  split <;> omega

theorem monthSucc_idx {c d : PyDate} (h : monthSucc c = some d) :
    monthIdx d = monthIdx c + 1 := by
  unfold monthSucc at h
  split at h
  · injection h with h'
    subst h'
    exact monthSucc_arith c
  · cases h

theorem monthSucc_eq_none_iff (c : PyDate) :
    monthSucc c = none ↔ c.year = 9999 ∧ c.month = 12 := by
  have h1 := c.month_pos
  have h2 := c.month_le12
  have h3 := c.year_le9999
  unfold monthSucc monthSuccYear
  split
  · rename_i h
    simp only [reduceCtorEq, false_iff]
    omega
  · rename_i h
    simp only [true_iff]
    omega

theorem monthSucc_some_of_lt {c : PyDate} (h : monthIdx c < 120000) :
    ∃ d, monthSucc c = some d := by
  cases hd : monthSucc c with
  | some d => exact ⟨d, rfl⟩
  | none =>
    rw [monthSucc_eq_none_iff] at hd
    unfold monthIdx at h
    omega

/-- The `while cur <= e` loop of `month_range`, collecting the visited
month tokens (the source appends `cur.strftime("%Y-%m")`; see
`month_range` below for the formatting step).  When the successor step
raises — `datetime(10000, 1, 1)` after appending `9999-12` — the
exception propagates and the collected list is discarded, modelled by
`Except.error`. -/
def monthLoop (e cur : PyDate) : Except Unit (List PyDate) :=
  if h : monthLe cur e then
    match hd : monthSucc cur with
    | none => .error ()
    | some nxt => (monthLoop e nxt).map (fun rest => cur :: rest)
  else
    .ok []
termination_by monthIdx e + 1 - monthIdx cur
decreasing_by
  rw [monthLe_iff] at h
  have := monthSucc_idx hd
  omega

theorem monthLoop_not_le {e cur : PyDate} (h : ¬ monthLe cur e = true) :
    monthLoop e cur = .ok [] := by
  rw [monthLoop]
  simp [h]

theorem monthLoop_le_none {e cur : PyDate} (h : monthLe cur e = true)
    (hd : monthSucc cur = none) : monthLoop e cur = .error () := by
  rw [monthLoop]
  rw [dif_pos h]
  split
  · rfl
  · rename_i nxt heq
    rw [hd] at heq
    cases heq

theorem monthLoop_le_some {e cur nxt : PyDate} (h : monthLe cur e = true)
    (hd : monthSucc cur = some nxt) :
    monthLoop e cur = (monthLoop e nxt).map (fun rest => cur :: rest) := by
  rw [monthLoop]
  rw [dif_pos h]
  split
  · rename_i heq
    rw [hd] at heq
    cases heq
  · rename_i nxt' heq
    rw [hd] at heq
    injection heq with heq'
    subst heq'
    rfl

/-- When the end month lies strictly before 9999-12, the loop returns
(no step overflows `MAXYEAR`) and the returned list is the consecutive,
strictly increasing run of months of the exact expected length. -/
theorem monthLoop_ok (e : PyDate) (he : monthIdx e < 120000) :
    ∀ (n : ℕ) (cur : PyDate), monthIdx e + 1 - monthIdx cur = n →
      ∃ l, monthLoop e cur = .ok l ∧
        l.length = n ∧
        (∀ x ∈ l, monthIdx cur ≤ monthIdx x) ∧
        (0 < n → l.head? = some cur) ∧
        List.Chain' (fun a b => monthSucc a = some b) l ∧
        l.Pairwise (fun a b => monthIdx a < monthIdx b) := by
  intro n
  induction n with
  | zero =>
    intro cur hn
    have hnle : ¬ monthLe cur e = true := by rw [monthLe_iff]; omega
    exact ⟨[], monthLoop_not_le hnle, rfl, by simp,
      fun h => absurd h (Nat.lt_irrefl 0), by simp, by simp⟩
  | succ n ih =>
    intro cur hn
    have hle : monthLe cur e = true := by rw [monthLe_iff]; omega
    have hcur : monthIdx cur < 120000 := by
      rw [monthLe_iff] at hle
      omega
    obtain ⟨d, hd⟩ := monthSucc_some_of_lt hcur
    have hdidx := monthSucc_idx hd
    obtain ⟨rest, hrest, hlen, hbound, hhead, hchain, hpair⟩ := ih d (by omega)
    refine ⟨cur :: rest, ?_, ?_, ?_, ?_, ?_, ?_⟩
    · rw [monthLoop_le_some hle hd, hrest]
      rfl
    · simp [hlen]
    · intro x hx
      rcases List.mem_cons.mp hx with h | h
      · subst h
        exact le_refl _
      · have := hbound x h
        omega
    · intro _
      rfl
    · rw [List.chain'_cons']
      refine ⟨?_, hchain⟩
      intro b hb
      cases n with
      | zero =>
        rw [List.length_eq_zero.mp hlen] at hb
        simp at hb
      | succ k =>
        rw [hhead (by omega)] at hb
        simp only [Option.mem_def, Option.some.injEq] at hb
        subst hb
        exact hd
    · rw [List.pairwise_cons]
      refine ⟨?_, hpair⟩
      intro x hx
      have := hbound x hx
      omega

/-- When the end month is exactly 9999-12 and the loop is entered, the
final iteration computes `datetime(10000, 1, 1)` and the whole call
raises: no list is returned. -/
theorem monthLoop_overflow (e : PyDate) (he : e.year = 9999 ∧ e.month = 12) :
    ∀ (n : ℕ) (cur : PyDate), monthIdx e + 1 - monthIdx cur = n →
      monthLe cur e = true → monthLoop e cur = .error () := by
  intro n
  induction n with
  | zero =>
    intro cur hn hle
    rw [monthLe_iff] at hle
    exact absurd hle (by omega)
  | succ n ih =>
    intro cur hn hle
    cases hd : monthSucc cur with
    | none => exact monthLoop_le_none hle hd
    | some d =>
      have hdidx := monthSucc_idx hd
      have hcurne : ¬ (cur.year = 9999 ∧ cur.month = 12) := by
        intro hc
        rw [← monthSucc_eq_none_iff] at hc
        rw [hc] at hd
        cases hd
      have hidxe : monthIdx e = 120000 := by
        unfold monthIdx
        omega
      have hcuridx : monthIdx cur < 120000 := by
        have h1 := cur.year_le9999
        have h2 := cur.month_le12
        unfold monthIdx
        omega
      have hde : monthLe d e = true := by
        rw [monthLe_iff]
        omega
      rw [monthLoop_le_some hle hd, ih d (by omega) hde]
      rfl

/-! ### Parsing and formatting of `YYYY-MM` identifiers

Models `datetime.strptime(s, "%Y-%m")`: CPython's `_strptime` compiles the
format into the regular expression `(\d\d\d\d)\-(1[0-2]|0[1-9]|[1-9])`,
requires the whole input to be consumed, and then constructs
`datetime(year, month, 1)`, which rejects year 0 (`MINYEAR = 1`).
Failure raises `ValueError`, modelled as `none`.  Only ASCII digits are
modelled. -/

/-- Value of one ASCII digit character, `none` for anything else. -/
def digitVal (c : Char) : Option ℕ :=
  if c = '0' then some 0
  else if c = '1' then some 1
  else if c = '2' then some 2
  else if c = '3' then some 3
  else if c = '4' then some 4
  else if c = '5' then some 5
  else if c = '6' then some 6
  else if c = '7' then some 7
  else if c = '8' then some 8
  else if c = '9' then some 9
  else none

theorem digitVal_le9 {c : Char} {d : ℕ} (h : digitVal c = some d) : d ≤ 9 := by
  unfold digitVal at h
  repeat' split at h
  all_goals simp_all
  all_goals omega

/-- The month part of the `strptime` regular expression,
`1[0-2]|0[1-9]|[1-9]` (matching the whole remaining input). -/
def parseMonthChars : List Char → Option ℕ
  | [c] =>
    match digitVal c with
    | some d => if 1 ≤ d then some d else none
    | none => none
  | [c1, c2] =>
    match digitVal c1, digitVal c2 with
    | some p, some q =>
      if (p = 0 ∧ 1 ≤ q) ∨ (p = 1 ∧ q ≤ 2) then some (p * 10 + q) else none
    | _, _ => none
  | _ => none

theorem parseMonthChars_bounds {cs : List Char} {m : ℕ}
    (h : parseMonthChars cs = some m) : 1 ≤ m ∧ m ≤ 12 := by
  match cs with
  | [] => simp [parseMonthChars] at h
  | [c] =>
    simp only [parseMonthChars] at h
    split at h
    · rename_i d hd
      split at h <;> simp_all
      have := digitVal_le9 hd
      omega
    · simp at h
  | [c1, c2] =>
    simp only [parseMonthChars] at h
    split at h
    · rename_i p q hp hq
      have h9 := digitVal_le9 hq
      split at h <;> simp_all
      omega
    · simp at h
  | _ :: _ :: _ :: _ => simp [parseMonthChars] at h

/-- The four-digit year part `\d\d\d\d` of the `strptime` regular
expression. -/
def parseYear4 (c1 c2 c3 c4 : Char) : Option ℕ :=
  match digitVal c1, digitVal c2, digitVal c3, digitVal c4 with
  | some a, some b, some c, some d => some (((a * 10 + b) * 10 + c) * 10 + d)
  | _, _, _, _ => none

theorem parseYear4_le9999 {c1 c2 c3 c4 : Char} {y : ℕ}
    (h : parseYear4 c1 c2 c3 c4 = some y) : y ≤ 9999 := by
  unfold parseYear4 at h
  split at h
  · rename_i a b c d ha hb hc hd
    have := digitVal_le9 ha
    have := digitVal_le9 hb
    have := digitVal_le9 hc
    have := digitVal_le9 hd
    injection h with h'
    omega
  · cases h

/-- Models `datetime.strptime(s, "%Y-%m")` (see the section comment). -/
def strptime_Y_m (s : String) : Option PyDate :=
  match s.toList with
  | c1 :: c2 :: c3 :: c4 :: '-' :: ms =>
    match hy : parseYear4 c1 c2 c3 c4, hm : parseMonthChars ms with
    | some y, some m =>
      if h1 : 1 ≤ y then
        some ⟨y, m, h1, parseYear4_le9999 hy,
          (parseMonthChars_bounds hm).1, (parseMonthChars_bounds hm).2⟩
      else
        none
    | _, _ => none
  | _ => none

/-- Models `cur.strftime("%Y-%m")`: the year zero-padded to four digits
and the month to two. -/
def strftime_Y_m (d : PyDate) : String :=
  let dig : ℕ → Char := fun n => Char.ofNat (48 + n % 10)
  String.mk [dig (d.year / 1000), dig (d.year / 100), dig (d.year / 10), dig d.year,
    '-', dig (d.month / 10), dig d.month]

/-- The function `month_range(start_yyyy_mm, end_yyyy_mm)` (source lines
30–41): parse both identifiers (a parse failure raises `ValueError`,
modelled as `none`), then run the stepping loop and format each visited
month.  When `start > end` the loop body never runs and the empty list
is returned without any error; when the loop's stepping overflows
`MAXYEAR` (end month 9999-12) the `ValueError` raised by the `datetime`
constructor propagates out, also modelled as `none`. -/
def month_range (start_yyyy_mm end_yyyy_mm : String) : Option (List String) :=
  match strptime_Y_m start_yyyy_mm with
  | none => none
  | some s =>
    match strptime_Y_m end_yyyy_mm with
    | none => none
    | some e =>
      match monthLoop e s with
      | .error _ => none
      | .ok months => some (months.map strftime_Y_m)

/-- Concrete month token 2024-11, for witnesses. -/
def nov2024 : PyDate := ⟨2024, 11, by omega, by omega, by omega, by omega⟩

/-- Concrete month token 2025-01, for witnesses. -/
def jan2025 : PyDate := ⟨2025, 1, by omega, by omega, by omega, by omega⟩

/-- Month token 9999-12, the upper boundary of `datetime`. -/
def dec9999 : PyDate := ⟨9999, 12, by omega, by omega, by omega, by omega⟩

/-- Counterexample to C5 as stated: 9999-12 ≤ 9999-12 is a valid pair of
month identifiers, but instead of returning the one-token sequence the
expander raises `ValueError` (`none`): after appending the final month
the loop body constructs `datetime(10000, 1, 1)`, exceeding `MAXYEAR`. -/
theorem c5_counterexample :
    monthLe dec9999 dec9999 = true ∧ month_range "9999-12" "9999-12" = none := by
  constructor
  · decide
  · have hs : strptime_Y_m "9999-12" = some dec9999 := by rfl
    have hloop : monthLoop dec9999 dec9999 = .error () :=
      monthLoop_overflow dec9999 ⟨rfl, rfl⟩ _ dec9999 rfl (by decide)
    unfold month_range
    rw [hs]
    simp [hloop]

/-- C5, corrected: for every valid pair of month tokens with
start ≤ end whose end month lies before 9999-12, the month loop of
`month_range` returns exactly
`(end.year*12 + end.month) - (start.year*12 + start.month) + 1` tokens,
beginning at the start month, consecutive — each token is the calendar
successor of the previous one, with December rolling over to January of
the next year — and strictly increasing (hence gap- and duplicate-free).
When the end month is exactly 9999-12, the stepping overflows
`MAXYEAR = 9999` and the call raises `ValueError` instead of returning
the sequence. -/
theorem c5_amended (s e : PyDate) (hle : monthLe s e = true) :
    (¬ (e.year = 9999 ∧ e.month = 12) →
      ∃ l, monthLoop e s = .ok l ∧
        l.length = (e.year * 12 + e.month) - (s.year * 12 + s.month) + 1 ∧
        l.head? = some s ∧
        List.Chain' (fun a b => monthSucc a = some b) l ∧
        l.Pairwise (fun a b => monthIdx a < monthIdx b)) ∧
    ((e.year = 9999 ∧ e.month = 12) → monthLoop e s = .error ()) := by
  rw [monthLe_iff] at hle
  constructor
  · intro hne
    have he : monthIdx e < 120000 := by
      have h1 := e.year_le9999
      have h2 := e.month_le12
      unfold monthIdx
      omega
    obtain ⟨l, hl, hlen, _, hhead, hchain, hpair⟩ :=
      monthLoop_ok e he (monthIdx e - monthIdx s + 1) s (by omega)
    refine ⟨l, hl, ?_, hhead (by omega), hchain, hpair⟩
    rw [hlen]
    unfold monthIdx at hle ⊢
    omega
  · intro he
    exact monthLoop_overflow e he _ s rfl (by rw [monthLe_iff]; omega)

/-- Witness for the amended C5 at the concrete range 2024-11 .. 2025-01
(a December→January rollover): the loop returns a list of three months
starting at 2024-11. -/
theorem c5_amended_witness :
    monthLe nov2024 jan2025 = true ∧
    ∃ l, monthLoop jan2025 nov2024 = .ok l ∧
      l.length = (jan2025.year * 12 + jan2025.month) -
        (nov2024.year * 12 + nov2024.month) + 1 ∧
      l.head? = some nov2024 ∧
      List.Chain' (fun a b => monthSucc a = some b) l ∧
      l.Pairwise (fun a b => monthIdx a < monthIdx b) :=
  ⟨by decide, (c5_amended nov2024 jan2025 (by decide)).1 (by decide)⟩

/-- C2, corrected: a malformed month identifier makes `month_range` raise
`ValueError` (modelled as `none`), surfaced to the caller; but a
syntactically valid pair with start > end is NOT surfaced as an error —
the `while` loop never runs and the empty month list is silently
returned. -/
theorem c2_amended (s e : String) :
    (strptime_Y_m s = none ∨ strptime_Y_m e = none → month_range s e = none) ∧
    (∀ ds de, strptime_Y_m s = some ds → strptime_Y_m e = some de →
      monthLe ds de = false → month_range s e = some []) := by
  constructor
  · intro h
    unfold month_range
    rcases h with h | h
    · rw [h]
    · cases hsa : strptime_Y_m s with
      | none => rfl
      | some ds => rw [h]
  · intro ds de hs he hlt
    have hnle : ¬ monthLe ds de = true := by simp [hlt]
    unfold month_range
    rw [hs, he]
    simp [monthLoop_not_le hnle]

/-- Counterexample to C2 as stated: for start 2024-05 > end 2024-01 the
function returns the ordinary value `some []` — no configuration error is
surfaced to the caller. -/
theorem c2_counterexample : month_range "2024-05" "2024-01" = some [] := by
  have hs : strptime_Y_m "2024-05" =
      some ⟨2024, 5, by omega, by omega, by omega, by omega⟩ := by rfl
  have he : strptime_Y_m "2024-01" =
      some ⟨2024, 1, by omega, by omega, by omega, by omega⟩ := by rfl
  exact (c2_amended "2024-05" "2024-01").2 _ _ hs he (by rfl)

/-- Witness for the amended C2: the malformed identifier 2024-13 is
surfaced as an error, while an inverted range (start after end) yields
the silent empty result. -/
theorem c2_amended_witness :
    month_range "2024-13" "2024-01" = none ∧
    month_range "2024-03" "2024-02" = some [] := by
  constructor
  · exact (c2_amended "2024-13" "2024-01").1 (Or.inl (by rfl))
  · exact (c2_amended "2024-03" "2024-02").2
      ⟨2024, 3, by omega, by omega, by omega, by omega⟩
      ⟨2024, 2, by omega, by omega, by omega, by omega⟩ (by rfl) (by rfl) (by rfl)

/-! ### Archive decoding (`parse_month_zip`, source lines 87–133)

The CSV member is read with `pd.read_csv(f, header=None, dtype=str,
on_bad_lines="skip")`, so every cell reaches the coercions below as a
string.  We model a cell by the outcome of
`pd.to_numeric(cell, errors="coerce")`: either it coerces to a (finite)
number or it yields `NaN`.  Of the twelve columns only the six that the
function reads (`open_time` and the five price/volume fields) are
modelled; the other six are named but never used. -/

/-- A raw CSV cell, abstracted by its `pd.to_numeric(errors="coerce")`
outcome. -/
inductive RawField where
  | num (q : ℚ)
  | bad
deriving DecidableEq

/-- Models `pd.to_numeric(cell, errors="coerce")`; `none` is `NaN`. -/
def toNumeric : RawField → Option ℚ
  | .num q => some q
  | .bad => none

/-- One parsed CSV row (the six columns that `parse_month_zip` uses). -/
structure RawRow where
  open_time : RawField
  «open» : RawField
  high : RawField
  low : RawField
  close : RawField
  volume : RawField
deriving DecidableEq

/-- One row of the DataFrame built at lines 122–129: a converted
timestamp (nanoseconds since the UTC epoch, the resolution of pandas'
`datetime64[ns]`) and the five coerced numeric fields, each `none` when
its cell failed coercion. -/
structure Candle where
  timestamp : ℚ
  «open» : Option ℚ
  high : Option ℚ
  low : Option ℚ
  close : Option ℚ
  volume : Option ℚ
deriving DecidableEq

/-- Models `Series.median()` on the non-null values: sort, take the
middle element (odd length) or the mean of the two middle elements (even
length); an empty series has median `NaN`, modelled as `none`. -/
def median (l : List ℚ) : Option ℚ :=
  if l = [] then none
  else
    let s := l.insertionSort (· ≤ ·)
    let n := l.length
    if n % 2 = 1 then some (s.getD (n / 2) 0)
    else some ((s.getD (n / 2 - 1) 0 + s.getD (n / 2) 0) / 2)

/-- The four timestamp encodings the unit auto-detection can produce. -/
inductive TimeUnit where
  | ns
  | us
  | ms
  | s
deriving DecidableEq

/-- The unit auto-detection at lines 108–116, applied to the median of
the coerced `open_time` column.  When every `open_time` fails coercion
the median is `NaN`; every Python comparison `NaN > c` is `False`, so the
chain falls through to `"s"` — modelled by the `none` branch.  The
thresholds are the exact values of the float literals `1e17`, `1e14`,
`1e11` of the source (all three are exactly representable in binary64). -/
def detectUnit (med : Option ℚ) : TimeUnit :=
  match med with
  | none => .s
  | some m =>
    if m > 100000000000000000 then .ns
    else if m > 100000000000000 then .us
    else if m > 100000000000 then .ms
    else .s

/-- Nanoseconds per detected unit, as used by `pd.to_datetime(ts, unit=unit)`. -/
def unitNanos : TimeUnit → ℚ
  | .ns => 1
  | .us => 1000
  | .ms => 1000000
  | .s => 1000000000

/-- Models `pd.to_datetime(x, unit=u, utc=True, errors="coerce")` on one
numeric value: the value is scaled to nanoseconds and must fit the
signed-64-bit `datetime64[ns]` range; out-of-range values (and `NaN`)
coerce to `NaT` (`none`).  Sub-nanosecond rounding is not modelled — the
scaled value is kept exact. -/
def to_datetime (u : TimeUnit) (x : Option ℚ) : Option ℚ :=
  x.bind fun q =>
    let ns := q * unitNanos u
    if -9223372036854775807 ≤ ns ∧ ns ≤ 9223372036854775807 then some ns else none

/-- The coerced `open_time` column `ts = pd.to_numeric(df["open_time"],
errors="coerce")`. -/
def tsColumn (rows : List RawRow) : List (Option ℚ) :=
  rows.map fun r => toNumeric r.open_time

/-- The unit detected for a row batch:
`detectUnit` applied to `ts.dropna().median()`. -/
def batchUnit (rows : List RawRow) : TimeUnit :=
  detectUnit (median ((tsColumn rows).filterMap id))

/-- The row built for the output DataFrame at lines 122–129: the
converted timestamp plus the five coerced fields; `none` when the
timestamp column holds `NaT` (such rows are removed by the subsequent
`dropna(subset=["timestamp"])`). -/
def mkCandle (u : TimeUnit) (r : RawRow) : Option Candle :=
  (to_datetime u (toNumeric r.open_time)).map fun t =>
    ⟨t, toNumeric r.«open», toNumeric r.high, toNumeric r.low,
      toNumeric r.close, toNumeric r.volume⟩

/-- Ordering of output rows by the timestamp column. -/
def tsLE (a b : Candle) : Prop := a.timestamp ≤ b.timestamp

instance : DecidableRel tsLE := fun a b =>
  inferInstanceAs (Decidable (a.timestamp ≤ b.timestamp))

instance : IsTotal Candle tsLE := ⟨fun a b => le_total a.timestamp b.timestamp⟩

instance : IsTrans Candle tsLE := ⟨fun _ _ _ h1 h2 => le_trans h1 h2⟩

/-- Models `df.sort_values("timestamp")`.  pandas' default sort kind is
`"quicksort"`, whose order among rows with equal timestamps is
unspecified (only `"mergesort"`/`"stable"` are documented as stable); we
model the operation with a comparison sort, and every property proved
below is independent of the tie-breaking order among equal timestamps. -/
def sort_values (l : List Candle) : List Candle :=
  l.insertionSort tsLE

/-- Accumulator pass behind `Series.duplicated(keep="first")`: a row is
kept exactly when its timestamp has not occurred earlier. -/
def keepFirstAux (seen : List ℚ) : List Candle → List Candle
  | [] => []
  | c :: rest =>
    if c.timestamp ∈ seen then keepFirstAux seen rest
    else c :: keepFirstAux (c.timestamp :: seen) rest

/-- Models `df[~df["timestamp"].duplicated(keep="first")]`. -/
def drop_duplicate_ts (l : List Candle) : List Candle :=
  keepFirstAux [] l

/-- The sort-and-dedup-by-timestamp step (lines 130–132 and 142–145):
sort by timestamp, then keep only the first row of each timestamp. -/
def sortDedup (l : List Candle) : List Candle :=
  drop_duplicate_ts (sort_values l)

/-- The row-level core of `parse_month_zip` (lines 104–133): detect the
unit from the median of the coerced `open_time` column, convert every
row with that single unit, drop the rows whose converted timestamp is
null (`dropna(subset=["timestamp"])` — the five numeric fields are NOT
part of the subset), sort by timestamp and drop duplicate timestamps. -/
def parse_month_zip_rows (rows : List RawRow) : List Candle :=
  sortDedup (rows.filterMap (mkCandle (batchUnit rows)))

/-- Contents of the first archive member as seen by `read_csv` plus the
12-column assignment of lines 98–102: assigning the column names raises
`ValueError` when the file does not have exactly 12 columns. -/
inductive CsvMember where
  | badShape
  | table (rows : List RawRow)

/-- The fetched archive bytes: either not a valid zip container
(`zipfile.ZipFile` raises `BadZipFile`) or a list of members. -/
inductive ZipBytes where
  | malformed
  | zip (members : List CsvMember)

/-- The function `parse_month_zip(zbytes)` (lines 87–133): a malformed
container raises; an archive with no members returns an empty frame; and
otherwise the first member is decoded (a member whose column count is
not 12 raises at the column assignment).  `Except.error` models a raised
exception. -/
def parse_month_zip : ZipBytes → Except Unit (List Candle)
  | .malformed => .error ()
  | .zip [] => .ok []
  | .zip (.badShape :: _) => .error ()
  | .zip (.table rows :: _) => .ok (parse_month_zip_rows rows)

/-! ### Properties of the sort-and-dedup step -/

theorem keepFirstAux_sublist (seen : List ℚ) (l : List Candle) :
    (keepFirstAux seen l).Sublist l := by
  induction l generalizing seen with
  | nil => simp [keepFirstAux]
  | cons c rest ih =>
    rw [keepFirstAux]
    split
    · exact (ih seen).cons c
    · exact (ih (c.timestamp :: seen)).cons₂ c

theorem mem_of_mem_keepFirstAux {seen : List ℚ} {l : List Candle} {c : Candle}
    (h : c ∈ keepFirstAux seen l) : c ∈ l :=
  (keepFirstAux_sublist seen l).mem h

theorem mem_ts_keepFirstAux {t : ℚ} {l : List Candle} :
    ∀ {seen : List ℚ},
      (t ∈ (keepFirstAux seen l).map Candle.timestamp ↔
        t ∈ l.map Candle.timestamp ∧ t ∉ seen) := by
  induction l with
  | nil => intro seen; simp [keepFirstAux]
  | cons c rest ih =>
    intro seen
    rw [keepFirstAux]
    split
    · rename_i hmem
      rw [ih]
      by_cases ht : t = c.timestamp <;> simp_all
    · rename_i hmem
      simp only [List.map_cons, List.mem_cons]
      rw [ih]
      by_cases ht : t = c.timestamp <;> simp_all

theorem keepFirstAux_ts_nodup (l : List Candle) :
    ∀ seen : List ℚ,
      ((keepFirstAux seen l).map Candle.timestamp).Nodup ∧
        ∀ t ∈ (keepFirstAux seen l).map Candle.timestamp, t ∉ seen := by
  induction l with
  | nil => intro seen; simp [keepFirstAux]
  | cons c rest ih =>
    intro seen
    rw [keepFirstAux]
    split
    · rename_i hmem
      refine ⟨(ih seen).1, (ih seen).2⟩
    · rename_i hmem
      have h1 := (ih (c.timestamp :: seen)).1
      have h2 := (ih (c.timestamp :: seen)).2
      simp only [List.map_cons, List.nodup_cons]
      refine ⟨⟨fun hc => ?_, h1⟩, ?_⟩
      · exact (h2 _ hc) (by simp)
      · intro t ht
        rcases List.mem_cons.mp ht with h | h
        · subst h; exact hmem
        · intro hseen
          exact (h2 t h) (by simp [hseen])

theorem keepFirstAux_eq_self {l : List Candle} :
    ∀ {seen : List ℚ}, (l.map Candle.timestamp).Nodup →
      (∀ c ∈ l, c.timestamp ∉ seen) → keepFirstAux seen l = l := by
  induction l with
  | nil => intro seen _ _; rfl
  | cons c rest ih =>
    intro seen hnd hdisj
    rw [keepFirstAux]
    rw [if_neg (hdisj c (by simp))]
    simp only [List.map_cons, List.nodup_cons] at hnd
    congr 1
    refine ih hnd.2 ?_
    intro c' hc'
    simp only [List.mem_cons]
    push_neg
    refine ⟨fun he => hnd.1 ?_, hdisj c' (by simp [hc'])⟩
    rw [← he]
    exact List.mem_map_of_mem Candle.timestamp hc'

theorem sort_values_perm (l : List Candle) : (sort_values l).Perm l :=
  List.perm_insertionSort tsLE l

theorem sort_values_sorted (l : List Candle) : (sort_values l).Pairwise tsLE :=
  List.sorted_insertionSort tsLE l

theorem sortDedup_sorted (l : List Candle) : (sortDedup l).Pairwise tsLE :=
  (sort_values_sorted l).sublist (keepFirstAux_sublist [] (sort_values l))

theorem sortDedup_ts_nodup (l : List Candle) :
    ((sortDedup l).map Candle.timestamp).Nodup :=
  (keepFirstAux_ts_nodup (sort_values l) []).1

theorem mem_ts_sortDedup {t : ℚ} {l : List Candle} :
    t ∈ (sortDedup l).map Candle.timestamp ↔ t ∈ l.map Candle.timestamp := by
  unfold sortDedup drop_duplicate_ts
  rw [mem_ts_keepFirstAux]
  simp only [List.not_mem_nil, not_false_iff, and_true]
  exact ((sort_values_perm l).map Candle.timestamp).mem_iff

/-- After sorting and deduplication the timestamps are strictly
increasing. -/
theorem sortDedup_strict (l : List Candle) :
    ((sortDedup l).map Candle.timestamp).Pairwise (· < ·) := by
  rw [List.pairwise_map]
  have h1 : (sortDedup l).Pairwise tsLE := sortDedup_sorted l
  have h2 : (sortDedup l).Pairwise (fun a b => a.timestamp ≠ b.timestamp) := by
    have hnd := sortDedup_ts_nodup l
    rw [List.Nodup, List.pairwise_map] at hnd
    exact hnd
  exact (h1.and h2).imp fun h => lt_of_le_of_ne h.1 h.2

/-! ### Cross-month concatenation (`concat_and_save`, lines 136–148) -/

/-- The function `concat_and_save(frames, out_csv)`: with no frames it
prints a warning and returns without writing (modelled `none`); otherwise
the frames are concatenated (`pd.concat`), null timestamps dropped (a
no-op here: decoded frames carry none), re-sorted and re-deduplicated by
timestamp, and the result is written (modelled `some series`). -/
def concat_and_save (frames : List (List Candle)) : Option (List Candle) :=
  if frames.isEmpty then none
  else some (sortDedup frames.flatten)

/-! ### The per-instrument fetch loop of `main` (lines 173–195)

`fetch_month_zip` (lines 78–85) returns `b""` for an HTTP 404
(a confirmed-absent archive), raises for any transport error or non-2xx
status, and otherwise returns the archive bytes.  The loop body runs
inside `try`: empty bytes skip the month with a log line; a decoded
non-empty frame is accumulated; any exception is printed and the loop
continues with the next month. -/

/-- Outcome of one `fetch_month_zip` call, as seen by `main`'s loop. -/
inductive FetchOutcome where
  | absent
  | err
  | ok (z : ZipBytes)

/-- One iteration of the accumulating loop over months. -/
def stepFrame (fetch : ℕ → FetchOutcome) (frames : List (List Candle)) (mm : ℕ) :
    List (List Candle) :=
  match fetch mm with
  | .absent => frames
  | .err => frames
  | .ok z =>
    match parse_month_zip z with
    | .error _ => frames
    | .ok df => if df.isEmpty then frames else frames ++ [df]

/-- The frames accumulated by `main` for one instrument across the
requested months. -/
def processMonths (fetch : ℕ → FetchOutcome) (months : List ℕ) :
    List (List Candle) :=
  months.foldl (stepFrame fetch) []

/-- What one month contributes to the accumulated frames: `none` for an
absent archive, a fetch or decode failure, or an empty decoded frame. -/
def monthContribution (fetch : ℕ → FetchOutcome) (mm : ℕ) :
    Option (List Candle) :=
  match fetch mm with
  | .absent => none
  | .err => none
  | .ok z =>
    match parse_month_zip z with
    | .error _ => none
    | .ok df => if df.isEmpty then none else some df

theorem stepFrame_eq (fetch : ℕ → FetchOutcome) (frames : List (List Candle))
    (mm : ℕ) :
    stepFrame fetch frames mm = frames ++ (monthContribution fetch mm).toList := by
  unfold stepFrame monthContribution
  rcases fetch mm with _ | _ | z
  · simp
  · simp
  · cases hz : parse_month_zip z with
    | error e => simp [hz]
    | ok df => by_cases h : df.isEmpty <;> simp [hz, h]

theorem processMonths_eq_filterMap (fetch : ℕ → FetchOutcome) (months : List ℕ) :
    processMonths fetch months = months.filterMap (monthContribution fetch) := by
  suffices h : ∀ acc, months.foldl (stepFrame fetch) acc =
      acc ++ months.filterMap (monthContribution fetch) by
    simpa [processMonths] using h []
  induction months with
  | nil => intro acc; simp
  | cons mm rest ih =>
    intro acc
    rw [List.foldl_cons, List.filterMap_cons, ih, stepFrame_eq]
    rcases monthContribution fetch mm with _ | df <;> simp

/-- The outer loop of `main` over the instrument bases: each base is
processed independently with its own `frames` accumulator, and its final
series (if any) is handed to `concat_and_save`. -/
def runInstruments (fetchFor : String → ℕ → FetchOutcome) (bases : List String)
    (months : List ℕ) : List (String × Option (List Candle)) :=
  bases.map fun b => (b, concat_and_save (processMonths (fetchFor b) months))

/-! ### Claim theorems: decoder -/

/-- Counterexample to C1 as stated: a row whose `open` cell fails numeric
coercion is NOT dropped.  `dropna(subset=["timestamp"])` filters on the
timestamp column only, so the record survives — with a null `open` — in
the decoder's output, contradicting the claimed invariant that every
output record has five well-formed numeric fields. -/
theorem c1_counterexample :
    parse_month_zip_rows [⟨.num 1700000000, .bad, .num 1, .num 2, .num 3, .num 4⟩] =
      [⟨1700000000000000000, none, some 1, some 2, some 3, some 4⟩] := by
  with_unfolding_all rfl

/-- C1, corrected: a row is dropped exactly when its TIMESTAMP fails
(numeric coercion failure, or a converted value outside the
`datetime64[ns]` range); rows whose price/volume cells fail coercion are
retained with `none` in those fields.  Part 1: a converted row is `none`
iff its timestamp conversion is `none`; part 2: every output record is
the conversion of some input row (so its timestamp is well-formed, while
its five numeric fields are whatever the row's coercions gave, possibly
null); part 3: every row whose timestamp converts contributes its
timestamp to the output — a failing price/volume field does NOT drop it. -/
theorem c1_amended :
    (∀ u r, mkCandle u r = none ↔ to_datetime u (toNumeric r.open_time) = none) ∧
    (∀ rows c, c ∈ parse_month_zip_rows rows →
      ∃ r ∈ rows, mkCandle (batchUnit rows) r = some c) ∧
    (∀ rows r, r ∈ rows → ∀ c, mkCandle (batchUnit rows) r = some c →
      ∃ c' ∈ parse_month_zip_rows rows, c'.timestamp = c.timestamp) := by
  refine ⟨?_, ?_, ?_⟩
  · intro u r
    unfold mkCandle
    cases to_datetime u (toNumeric r.open_time) <;> simp
  · intro rows c hc
    unfold parse_month_zip_rows sortDedup drop_duplicate_ts at hc
    have h1 : c ∈ sort_values (rows.filterMap (mkCandle (batchUnit rows))) :=
      mem_of_mem_keepFirstAux hc
    have h2 : c ∈ rows.filterMap (mkCandle (batchUnit rows)) :=
      (sort_values_perm _).subset h1
    exact List.mem_filterMap.mp h2
  · intro rows r hr c hmk
    have h1 : c ∈ rows.filterMap (mkCandle (batchUnit rows)) :=
      List.mem_filterMap.mpr ⟨r, hr, hmk⟩
    have h2 : c.timestamp ∈
        (rows.filterMap (mkCandle (batchUnit rows))).map Candle.timestamp :=
      List.mem_map_of_mem _ h1
    have h3 : c.timestamp ∈ (parse_month_zip_rows rows).map Candle.timestamp := by
      unfold parse_month_zip_rows
      exact mem_ts_sortDedup.mpr h2
    rcases List.mem_map.mp h3 with ⟨c', hc', hts⟩
    exact ⟨c', hc', hts⟩

/-- A row whose six cells all coerce, for witnesses. -/
def rowAllNum : RawRow := ⟨.num 1700000000, .num 5, .num 6, .num 7, .num 8, .num 9⟩

/-- The conversion of `rowAllNum` at unit seconds. -/
def candAllNum : Candle := ⟨1700000000000000000, some 5, some 6, some 7, some 8, some 9⟩

/-- Witness for the amended C1 on a concrete one-row batch. -/
theorem c1_amended_witness :
    (∃ r ∈ [rowAllNum], mkCandle (batchUnit [rowAllNum]) r = some candAllNum) ∧
    (∃ c' ∈ parse_month_zip_rows [rowAllNum], c'.timestamp = candAllNum.timestamp) := by
  have hpar : parse_month_zip_rows [rowAllNum] = [candAllNum] := by
    with_unfolding_all rfl
  have hmem : candAllNum ∈ parse_month_zip_rows [rowAllNum] := by
    rw [hpar]; exact List.mem_singleton.mpr rfl
  have hmk : mkCandle (batchUnit [rowAllNum]) rowAllNum = some candAllNum := by
    with_unfolding_all rfl
  exact ⟨c1_amended.2.1 [rowAllNum] candAllNum hmem,
    c1_amended.2.2 [rowAllNum] rowAllNum (by simp) candAllNum hmk⟩

/-- C4: whenever the batch median of the coerced `open_time` values is
defined, the detected unit is classified exactly by the magnitude
thresholds `1e17` (nanoseconds), `1e14` (microseconds), `1e11`
(milliseconds), seconds otherwise — and this single unit is used to
convert every row of the batch. -/
theorem c4_unit_detection (rows : List RawRow) (m : ℚ)
    (hm : median ((tsColumn rows).filterMap id) = some m) :
    batchUnit rows =
      (if m > 100000000000000000 then TimeUnit.ns
       else if m > 100000000000000 then TimeUnit.us
       else if m > 100000000000 then TimeUnit.ms
       else TimeUnit.s) ∧
    parse_month_zip_rows rows =
      sortDedup (rows.filterMap (mkCandle (batchUnit rows))) := by
  refine ⟨?_, rfl⟩
  unfold batchUnit
  rw [hm]
  rfl

/-- A one-row batch whose raw timestamp has millisecond magnitude. -/
def rowMs : RawRow := ⟨.num 1700000000000, .bad, .bad, .bad, .bad, .bad⟩

/-- Witness for C4: a concrete batch with median `1.7e12` is classified
as milliseconds. -/
theorem c4_witness :
    median ((tsColumn [rowMs]).filterMap id) = some 1700000000000 ∧
    batchUnit [rowMs] = TimeUnit.ms := by
  have hm : median ((tsColumn [rowMs]).filterMap id) = some 1700000000000 := by
    decide
  refine ⟨hm, ?_⟩
  rw [(c4_unit_detection [rowMs] 1700000000000 hm).1]
  decide

/-- Counterexample to C9 as stated: the operation is NOT a function of
the input multiset.  Two inputs holding the same two rows (equal
timestamps, different payloads) in opposite orders are permutations of
each other, yet the retained representative differs.  (For arrays this
small numpy's `quicksort` falls back to a stable insertion sort, so the
model's tie order provably coincides with pandas' actual behavior.) -/
theorem c9_counterexample :
    List.Perm
      [(⟨1, some 10, none, none, none, none⟩ : Candle), ⟨1, some 20, none, none, none, none⟩]
      [⟨1, some 20, none, none, none, none⟩, ⟨1, some 10, none, none, none, none⟩] ∧
    sortDedup
        [(⟨1, some 10, none, none, none, none⟩ : Candle), ⟨1, some 20, none, none, none, none⟩] ≠
      sortDedup
        [⟨1, some 20, none, none, none, none⟩, ⟨1, some 10, none, none, none, none⟩] := by
  constructor
  · decide
  · decide

/-- C9, corrected: the sort-and-dedup step is a pure, deterministic,
idempotent function of its input SEQUENCE (which duplicate of a repeated
timestamp survives depends on input order, so it is not a function of
the multiset alone): applying it to its own output reproduces that
output exactly. -/
theorem c9_amended (l : List Candle) : sortDedup (sortDedup l) = sortDedup l := by
  have hs : (sortDedup l).Pairwise tsLE := sortDedup_sorted l
  have hnd := sortDedup_ts_nodup l
  have h1 : sort_values (sortDedup l) = sortDedup l :=
    List.Sorted.insertionSort_eq hs
  calc sortDedup (sortDedup l)
      = drop_duplicate_ts (sort_values (sortDedup l)) := rfl
    _ = drop_duplicate_ts (sortDedup l) := by rw [h1]
    _ = sortDedup l := keepFirstAux_eq_self hnd (by simp)

/-- C10: a batch in which no raw `open_time` coerces has an undefined
(`NaN`) median; the unit classification falls through every magnitude
comparison to seconds, every row's converted timestamp is null, and the
decoder returns the empty series — no exception is raised (the model is
a total function mirroring the `NaN`-propagating Python path). -/
theorem c10_unparseable_batch (rows : List RawRow)
    (h : ∀ r ∈ rows, toNumeric r.open_time = none) :
    batchUnit rows = TimeUnit.s ∧ parse_month_zip_rows rows = [] := by
  have hts : (tsColumn rows).filterMap id = [] := by
    rw [List.filterMap_eq_nil_iff]
    intro a ha
    rcases List.mem_map.mp ha with ⟨r, hr, rfl⟩
    exact h r hr
  constructor
  · unfold batchUnit
    rw [hts]
    rfl
  · unfold parse_month_zip_rows
    have hfm : rows.filterMap (mkCandle (batchUnit rows)) = [] := by
      rw [List.filterMap_eq_nil_iff]
      intro r hr
      unfold mkCandle
      rw [h r hr]
      rfl
    rw [hfm]
    rfl

/-- A row whose `open_time` cell does not coerce. -/
def rowBadTs : RawRow := ⟨.bad, .num 1, .num 1, .num 1, .num 1, .num 1⟩

/-- Witness for C10 on a concrete batch with no parseable timestamp. -/
theorem c10_witness :
    (∀ r ∈ [rowBadTs], toNumeric r.open_time = none) ∧
    batchUnit [rowBadTs] = TimeUnit.s ∧
    parse_month_zip_rows [rowBadTs] = [] := by
  have h : ∀ r ∈ [rowBadTs], toNumeric r.open_time = none := by decide
  exact ⟨h, (c10_unparseable_batch [rowBadTs] h).1,
    (c10_unparseable_batch [rowBadTs] h).2⟩

/-! ### Claim theorems: merger and orchestrator -/

/-- C6: the Multi-Month Merger concatenates the per-month series in
order and re-applies the sort-and-dedup-by-timestamp rule to the
combined rows, so (whenever it produces an output) the output timestamps
are strictly increasing with no duplicates, and every timestamp present
in any input frame — in particular one shared by two adjacent month
frames — appears exactly once. -/
theorem c6_merger (frames : List (List Candle))
    (hfr : ∀ f ∈ frames, (f.map Candle.timestamp).Pairwise (· < ·))
    (out : List Candle) (hout : concat_and_save frames = some out) :
    (out.map Candle.timestamp).Pairwise (· < ·) ∧
    ∀ t, t ∈ frames.flatten.map Candle.timestamp →
      (out.map Candle.timestamp).count t = 1 := by
  unfold concat_and_save at hout
  split at hout
  · exact absurd hout (by simp)
  · have hout' : out = sortDedup frames.flatten := by
      injection hout with h'
      exact h'.symm
    subst hout'
    refine ⟨sortDedup_strict _, ?_⟩
    intro t ht
    exact List.count_eq_one_of_mem (sortDedup_ts_nodup _) (mem_ts_sortDedup.mpr ht)

/-- Candles for the C6 witness: two month frames overlapping at
timestamp 2. -/
def mA : Candle := ⟨1, some 1, none, none, none, none⟩

/-- Second candle of the first witness frame (the overlap row kept). -/
def mB : Candle := ⟨2, some 2, none, none, none, none⟩

/-- First candle of the second witness frame (the overlap row dropped). -/
def mB' : Candle := ⟨2, some 3, none, none, none, none⟩

/-- Last candle of the second witness frame. -/
def mC : Candle := ⟨3, some 4, none, none, none, none⟩

/-- Witness for C6: two strictly-increasing month frames sharing the
boundary timestamp 2 merge into a series where 2 appears exactly once. -/
theorem c6_witness :
    (∀ f ∈ [[mA, mB], [mB', mC]], (f.map Candle.timestamp).Pairwise (· < ·)) ∧
    concat_and_save [[mA, mB], [mB', mC]] = some (sortDedup [mA, mB, mB', mC]) ∧
    ((sortDedup [mA, mB, mB', mC]).map Candle.timestamp).count 2 = 1 := by
  have hfr : ∀ f ∈ [[mA, mB], [mB', mC]],
      (f.map Candle.timestamp).Pairwise (· < ·) := by decide
  have hout : concat_and_save [[mA, mB], [mB', mC]] =
      some (sortDedup [mA, mB, mB', mC]) := rfl
  exact ⟨hfr, hout, (c6_merger _ hfr _ hout).2 2 (by decide)⟩

/-- C7: per-month fault isolation in `main`'s loop.  The accumulated
frames are exactly the per-month contributions in month order (so no
month's outcome can affect any other month); a confirmed-absent archive
(404, empty bytes), a fetch failure, and a decode failure each
contribute `none`; and instruments are processed independently — each
instrument's result is a function of its own fetch outcomes only. -/
theorem c7_fault_isolation :
    (∀ fetch months, processMonths fetch months =
      months.filterMap (monthContribution fetch)) ∧
    (∀ fetch mm, fetch mm = .absent → monthContribution fetch mm = none) ∧
    (∀ fetch mm, fetch mm = .err → monthContribution fetch mm = none) ∧
    (∀ fetch mm z, fetch mm = .ok z → parse_month_zip z = .error () →
      monthContribution fetch mm = none) ∧
    (∀ fetchFor bases months, runInstruments fetchFor bases months =
      bases.map fun b =>
        (b, concat_and_save (months.filterMap (monthContribution (fetchFor b))))) := by
  refine ⟨processMonths_eq_filterMap, ?_, ?_, ?_, ?_⟩
  · intro fetch mm h
    unfold monthContribution
    rw [h]
  · intro fetch mm h
    unfold monthContribution
    rw [h]
  · intro fetch mm z h hz
    unfold monthContribution
    rw [h]
    simp [hz]
  · intro fetchFor bases months
    unfold runInstruments
    simp only [processMonths_eq_filterMap]

/-- A fetch oracle for the C7 witness: month 0 is absent, month 1 fails
in transport, month 2 returns a malformed archive, later months too. -/
def fetchW : ℕ → FetchOutcome := fun mm =>
  if mm = 0 then .absent else if mm = 1 then .err else .ok .malformed

/-- Witness for C7: under `fetchW` every month contributes nothing and
the accumulated frames equal the filterMap of the contributions. -/
theorem c7_witness :
    monthContribution fetchW 0 = none ∧
    monthContribution fetchW 1 = none ∧
    monthContribution fetchW 2 = none ∧
    processMonths fetchW [0, 1, 2, 3] =
      [0, 1, 2, 3].filterMap (monthContribution fetchW) := by
  refine ⟨?_, ?_, ?_, c7_fault_isolation.1 fetchW [0, 1, 2, 3]⟩
  · exact c7_fault_isolation.2.1 fetchW 0 (by rfl)
  · exact c7_fault_isolation.2.2.1 fetchW 1 (by rfl)
  · exact c7_fault_isolation.2.2.2.1 fetchW 2 .malformed (by rfl) (by rfl)

/-- C8: an instrument whose every requested month yields no data (absent
archive, failed month, or an empty decoded frame) accumulates no frames,
and `concat_and_save` then takes its early-return branch — warning only,
nothing persisted, no Output call. -/
theorem c8_no_output_without_data (fetch : ℕ → FetchOutcome) (months : List ℕ)
    (h : ∀ mm ∈ months, monthContribution fetch mm = none) :
    processMonths fetch months = [] ∧
    concat_and_save (processMonths fetch months) = none := by
  have h1 : processMonths fetch months = [] := by
    rw [processMonths_eq_filterMap, List.filterMap_eq_nil_iff]
    exact h
  refine ⟨h1, ?_⟩
  rw [h1]
  rfl

/-- A fetch oracle whose every month is confirmed absent. -/
def fetchAbsent : ℕ → FetchOutcome := fun _ => .absent

/-- Witness for C8: with every month absent, nothing is handed to
output. -/
theorem c8_witness :
    (∀ mm ∈ [0, 1], monthContribution fetchAbsent mm = none) ∧
    concat_and_save (processMonths fetchAbsent [0, 1]) = none := by
  have h : ∀ mm ∈ [0, 1], monthContribution fetchAbsent mm = none := by decide
  exact ⟨h, (c8_no_output_without_data fetchAbsent [0, 1] h).2⟩

end BinanceDownloader
